import Mathlib

/-!
Shallow embedding of the encrypted-VFS file handle (`exp/vfs/file.go`) of the
`wine` repository, together with the parts of its data model that the handle
manipulates.

Conventions of the embedding:
* Bytes are `List Nat`; Go's `int64` offsets and sizes are `Int`; Go's `int`
  lengths are `Nat` where they are provably non-negative in the source.
* Go's `bytes.Buffer` is the list of its unread bytes: `Write` appends at the
  back, `Read` consumes from the front, `Reset` empties it, and `Grow` only
  changes capacity, leaving the unread contents untouched.
* Stateful Go methods become state-passing functions: a method that mutates
  `f` (and, through pointers, the shared `FileInfo` node and `FileSystem`)
  returns the updated records.
* Go loops (`File.Read`'s refill loop, `File.flush`'s page loop) are embedded
  with explicit fuel; a distinguished `VErr.fuel` outcome marks fuel
  exhaustion, which corresponds to runs on which the Go loop itself would not
  terminate (for example flushing with a non-positive page size).  All
  theorems below hand the loops enough fuel for every terminating run.
* Go's `uuid.NewString()` produces a fresh, never-before-used blob key; it is
  embedded as a counter (`nextPage`) threaded through the file system, so the
  k-th generated page key is the number k.
-/

namespace VFS

/-- Byte strings.  (Byte-ness — values below 256 — is irrelevant to every
claim, so bytes are plain naturals.) -/
abbrev Bytes := List Nat

/-- Errors returned by the embedded operations.  Constructors mirror the
distinct error values produced in `file.go`: `io.EOF`, `os.ErrPermission`,
`os.ErrNotExist`, the explicit `errors.New`/`fmt.Errorf` sites of `Seek` and
`Readdir`, a Go panic from an out-of-range page index, and the fuel marker
described in the module comment. -/
inductive VErr where
  | eof
  | permission
  | notExist
  | cannotSeekDir
  | cannotSeekWrite
  | invalidWhence (w : Int)
  | negativePosition (p : Int)
  | overflow (p : Int)
  | notDir
  | panicIndex
  | fuel
  deriving Repr, DecidableEq

/-- `vfs.ReadOnly = Flag(os.O_RDONLY)`; on the library's target platforms
`os.O_RDONLY` is `0`. -/
def ReadOnly : Nat := 0

/-- `vfs.WriteOnly = Flag(os.O_WRONLY)`; `os.O_WRONLY` is `1`. -/
def WriteOnly : Nat := 1

/-- `vfs.Create = Flag(os.O_CREATE)`; `os.O_CREATE` is `0x40` on linux. -/
def Create : Nat := 64

/-- `io.SeekStart`. -/
def SeekStart : Int := 0

/-- `io.SeekCurrent`. -/
def SeekCurrent : Int := 1

/-- `io.SeekEnd`. -/
def SeekEnd : Int := 2

/-- `vfs.MinPageSize = int64(32 * types.KB)` (declared in the package's
constants file). -/
def MinPageSize : Int := 32 * 1024

/-- Modelled from the spec: the `FileInfo` node type of the Directory Tree is
not under `src/` (only `file.go`, which manipulates it through accessors, is).
Per spec §3 a node carries an `is_dir` flag, the ordered page-identifier
list, the total byte size, the transient busy flag, the detected
content-type, and (for directories) children; `DirContent()` is the
serialized listing a directory node presents as a virtual byte stream, and
`Files` the children visible to `Readdir` (kept as opaque child identifiers —
no claim looks inside them). -/
structure FileInfo where
  isDir : Bool
  pages : List Nat
  size : Int
  busy : Bool
  mimeType : String
  dirContent : Bytes
  files : List Nat
  deriving Repr, DecidableEq

/-- `FileInfo.IsDir()`. -/
def FileInfo.IsDir (i : FileInfo) : Bool := i.isDir

/-- `FileInfo.Size()`. -/
def FileInfo.Size (i : FileInfo) : Int := i.size

/-- `FileInfo.MIMEType()`. -/
def FileInfo.MIMEType (i : FileInfo) : String := i.mimeType

/-- `FileInfo.SetMIMEType(t)`. -/
def FileInfo.SetMIMEType (i : FileInfo) (t : String) : FileInfo :=
  { i with mimeType := t }

/-- `FileInfo.DirContent()`. -/
def FileInfo.DirContent (i : FileInfo) : Bytes := i.dirContent

/-- Modelled from the spec: `FileInfo.truncate()` "resets the node's prior
page list and size" (spec §4.5, write path). -/
def FileInfo.truncate (i : FileInfo) : FileInfo :=
  { i with pages := [], size := 0 }

/-- `FileInfo.addPage(p)`: appends a page identifier to the node's ordered
page list. -/
def FileInfo.addPage (i : FileInfo) (p : Nat) : FileInfo :=
  { i with pages := i.pages ++ [p] }

/-- `FileInfo.setSize(n)`. -/
def FileInfo.setSize (i : FileInfo) (n : Int) : FileInfo :=
  { i with size := n }

/-- Modelled from the spec: the Blob Store (`KVStorage`) holds opaque blobs
under string keys; keys here are the naturals produced by the freshness
counter.  `Put` replaces, `Get` returns the most recent `Put` for the key
(`none` models `os.ErrNotExist`). -/
def storageGet : List (Nat × Bytes) → Nat → Option Bytes
  | [], _ => none
  | (k, v) :: rest, key => if k = key then some v else storageGet rest key

/-- `storage.Put(key, val)`: most-recent-first association list, so a later
`Put` of the same key shadows the earlier one. -/
def storagePut (s : List (Nat × Bytes)) (k : Nat) (v : Bytes) : List (Nat × Bytes) :=
  (k, v) :: s

/-- Modelled from the spec: the File System record.  Only the fields `file.go`
touches are kept: the fixed `pageSize`, the Blob Store, the freshness counter
standing for `uuid.NewString()`, and `saveCount`, which counts successful
`SaveFileTree()` persistence events (the spec's sole durability checkpoint). -/
structure FileSystem where
  pageSize : Int
  storage : List (Nat × Bytes)
  nextPage : Nat
  saveCount : Nat
  deriving Repr, DecidableEq

/-- Modelled from the spec: the Page Codec encrypts a page in place; with the
file system's derived key, `decrypt ∘ encrypt = id` and decryption of a page
written by the same file system always succeeds, so both directions are the
identity on plaintext. -/
def FileSystem.EncryptPage (_ : FileSystem) (b : Bytes) : Bytes := b

/-- Modelled from the spec: inverse of `EncryptPage`; see there. -/
def FileSystem.DecryptPage (_ : FileSystem) (b : Bytes) : Bytes := b

/-- Modelled from the spec: `FileSystem.SaveFileTree()` re-serializes,
re-encrypts and stores the whole Directory Tree; the embedding records the
event in `saveCount`. -/
def FileSystem.SaveFileTree (fs : FileSystem) : FileSystem :=
  { fs with saveCount := fs.saveCount + 1 }

/-- Modelled from the spec: `httpvalue.DetectContentType` (outside this
repository's `src/`) sniffs a content type from a prefix of the data; no
claim depends on the sniffed value, only on the call sites, so it is a
constant. -/
def DetectContentType (_ : Bytes) : String := "application/octet-stream"

/-- The `File` handle of `file.go`: staging buffer, cursor, the node it was
opened on (shared through a pointer in Go, threaded explicitly here), and the
open-mode flag. -/
structure File where
  buf : Bytes
  offset : Int
  info : FileInfo
  flag : Nat
  deriving Repr, DecidableEq

/-- `newFile(vo, info, flag)`.  `none` models the Go `panic("invalid flag")`;
otherwise the handle starts with an empty buffer at offset 0, and a
write-only handle sets the node's busy flag. -/
def newFile (info : FileInfo) (flag : Nat) : Option File :=
  if Nat.land flag ReadOnly ≠ 0 ∧ Nat.land flag WriteOnly ≠ 0 then none
  else
    some { buf := [],
           offset := 0,
           info := if Nat.land flag WriteOnly ≠ 0 then { info with busy := true } else info,
           flag := flag }

/-- An empty, fresh file node as the File System creates it: no pages, size
0, not busy, no detected content type. -/
def newFileInfo : FileInfo :=
  { isDir := false, pages := [], size := 0, busy := false, mimeType := "",
    dirContent := [], files := [] }

/-- Junk handle used as the (unreachable) default when unwrapping `newFile`. -/
def defaultFile : File :=
  { buf := [], offset := 0, info := newFileInfo, flag := 0 }

/-- Unwrapped `newFile`; `newFile` never actually panics (see the claim-C9
theorems), so this is `newFile` without the `Option`. -/
def openHandle (info : FileInfo) (flag : Nat) : File :=
  (newFile info flag).getD defaultFile

/-- A fresh file system over an empty Blob Store with the given page size. -/
def initFS (P : Int) : FileSystem :=
  { pageSize := P, storage := [], nextPage := 0, saveCount := 0 }

/-- `File.Seek(offset, whence)` from `file.go`, checks in source order:
directory, write mode, the raw `offset >= Size()` guard (returning `io.EOF`),
the `whence` switch, negativity and overflow of the absolute position; on
success it resets the staging buffer and moves the cursor.  Returns
(position result, error, updated handle). -/
def File.Seek (f : File) (offset : Int) (whence : Int) : Int × Option VErr × File :=
  if f.info.IsDir then (0, some VErr.cannotSeekDir, f)
  else if Nat.land f.flag WriteOnly ≠ 0 then (0, some VErr.cannotSeekWrite, f)
  else if offset ≥ f.info.Size then (f.offset, some VErr.eof, f)
  else
    let absE : Except VErr Int :=
      if whence = SeekStart then Except.ok offset
      else if whence = SeekCurrent then Except.ok (f.offset + offset)
      else if whence = SeekEnd then Except.ok (f.info.Size + offset)
      else Except.error (VErr.invalidWhence whence)
    match absE with
    | Except.error e => (f.offset, some e, f)
    | Except.ok a =>
      if a < 0 then (f.offset, some (VErr.negativePosition a), f)
      else if a > f.info.Size then (f.offset, some (VErr.overflow a), f)
      else (a, none, { f with buf := [], offset := a })

/-- `File.Readdir(count)` from `file.go`: fails on non-directories, otherwise
returns every child in one call; `count` is never consulted. -/
def File.Readdir (f : File) (_count : Int) : Except VErr (List Nat) :=
  if ¬f.info.IsDir then Except.error VErr.notDir
  else Except.ok f.info.files

/-- `bytes.Buffer.Read(p)` with `m = len(p)`: returns (bytes copied out,
remaining buffer, error).  An empty buffer yields `io.EOF` unless `m = 0`;
a non-empty buffer copies `min m (length)` bytes and never errors. -/
def bufferRead (buf : Bytes) (m : Nat) : Bytes × Bytes × Option VErr :=
  if buf.length = 0 then
    if m = 0 then ([], buf, none) else ([], buf, some VErr.eof)
  else (buf.take m, buf.drop m, none)

/-- The draining tail of `File.read`: `nr, err := f.buf.Read(p)`, advance the
offset by `nr`, and swallow `io.EOF` from the buffer ("EOF of reading buf is
not an error"). -/
def drainBuf (f : File) (buf1 : Bytes) (m : Nat) : Bytes × Option VErr × File :=
  let r := bufferRead buf1 m
  let err := if r.2.2 = some VErr.eof then none else r.2.2
  (r.1, err, { f with buf := r.2.1, offset := f.offset + r.1.length })

/-- `File.read(p)` from `file.go` (one refill-and-drain step), `m = len(p)`:
at or past end-of-file report `io.EOF`; with an empty staging buffer compute
`pageIndex := offset / pageSize` (Go `int64` division truncates toward zero,
hence `Int.tdiv`; division by zero cannot be reached under a valid page
size), fetch and decrypt that page and append it to the buffer —
`buf.Grow(offset % pageSize)` only adjusts capacity, so it leaves the
contents unchanged and is a no-op here; finally drain the buffer into the
caller's slice.  A missing blob maps to `io.EOF`; an out-of-range page index
is the Go panic `panicIndex`. -/
def File.read (fs : FileSystem) (f : File) (m : Nat) : Bytes × Option VErr × File :=
  if f.info.Size ≤ f.offset then ([], some VErr.eof, f)
  else if f.buf.length = 0 then
    let pageIndex := Int.tdiv f.offset fs.pageSize
    match (if 0 ≤ pageIndex then f.info.pages[pageIndex.toNat]? else none) with
    | none => ([], some VErr.panicIndex, f)
    | some page =>
      match storageGet fs.storage page with
      | none => ([], some VErr.eof, f)
      | some data => drainBuf f (f.buf ++ fs.DecryptPage data) m
  else drainBuf f f.buf m

/-- The `for nRead < nExpected` loop of `File.Read`, with fuel: repeatedly
call `File.read` on the rest of the caller's slice; on error return the bytes
accumulated so far together with the error, otherwise keep going until the
request is satisfied.  Returns (count, bytes delivered, error, handle). -/
def File.readLoop (fs : FileSystem) : Nat → File → Nat → Nat × Bytes × Option VErr × File
  | 0, f, _ => (0, [], some VErr.fuel, f)
  | fuel + 1, f, m =>
    if m = 0 then (0, [], none, f)
    else
      match File.read fs f m with
      | (got, some e, f1) => (got.length, got, some e, f1)
      | (got, none, f1) =>
        match File.readLoop fs fuel f1 (m - got.length) with
        | (n2, got2, err2, f2) => (got.length + n2, got ++ got2, err2, f2)

/-- `File.Read(p)` from `file.go`, `m = len(p)`: write-only handles get
`os.ErrPermission`; a directory node serves bytes of its serialized listing
from the current offset and reports `io.EOF` once the cursor reaches its
size; a file node runs the refill loop.  Fuel `m + 1` covers every
terminating run of the Go loop: each successful iteration on a well-formed
file delivers at least one byte (a run the Go loop would never finish —
possible only with an empty stored page — is returned as `VErr.fuel`). -/
def File.Read (fs : FileSystem) (f : File) (m : Nat) : Nat × Bytes × Option VErr × File :=
  if Nat.land f.flag WriteOnly ≠ 0 then (0, [], some VErr.permission, f)
  else if f.info.IsDir then
    let got := if f.offset < f.info.Size then (f.info.DirContent.drop f.offset.toNat).take m else []
    let f1 := { f with offset := f.offset + got.length }
    if f.info.Size ≤ f1.offset then (got.length, got, some VErr.eof, f1)
    else (got.length, got, none, f1)
  else File.readLoop fs (m + 1) f m

/-- The `if n > 0 { ... }` body of one `File.flush` loop iteration: given the
`chunk` the buffer handed out and the `rest` it kept, truncate the node on
the very first flushed byte (`offset == 0`), advance the running offset,
encrypt the chunk and store it under a fresh page key, and append that key to
the node's page list; with an empty chunk only the buffer is updated. -/
def flushStep (fs : FileSystem) (f : File) (chunk rest : Bytes) : File × FileSystem :=
  if 0 < chunk.length then
    let info1 := if f.offset = 0 then f.info.truncate else f.info
    let page := fs.nextPage
    let data := fs.EncryptPage chunk
    ({ f with buf := rest, offset := f.offset + chunk.length, info := info1.addPage page },
     { fs with storage := storagePut fs.storage page data, nextPage := fs.nextPage + 1 })
  else ({ f with buf := rest }, fs)

/-- The `for all || buf.Len() >= pageSize` loop of `File.flush`, with fuel.
Each iteration reads up to one page worth of bytes out of the staging buffer
and runs `flushStep` on what it got; it stops on the buffer's `io.EOF` (the
`break`) or when the loop condition fails.  `none` means the loop exited
normally (`break` included). -/
def flushLoop (all : Bool) : Nat → FileSystem → File → Option VErr × File × FileSystem
  | 0, fs, f => (some VErr.fuel, f, fs)
  | fuel + 1, fs, f =>
    if all = true ∨ fs.pageSize ≤ (f.buf.length : Int) then
      match bufferRead f.buf fs.pageSize.toNat with
      | (chunk, rest, rerr) =>
        let step := flushStep fs f chunk rest
        match rerr with
        | some VErr.eof => (none, step.1, step.2)
        | some e => (some e, step.1, step.2)
        | none => flushLoop all fuel step.2 step.1
    else (none, f, fs)

/-- The content-type sniff opening `File.flush`: with a non-empty buffer and
either nothing flushed yet (`offset == 0`) or a failed prior detection, set
the node's content type from the buffered bytes. -/
def flushMime (f : File) : File :=
  if 0 < f.buf.length ∧ (f.offset = 0 ∨ f.info.MIMEType = "") then
    { f with info := f.info.SetMIMEType (DetectContentType f.buf) }
  else f

/-- The epilogue of `File.flush`: a loop error is returned as-is; after a
normal exit, when `all`, the node's size is fixed at the running offset and
the Directory Tree persisted. -/
def flushFinish (all : Bool) (r : Option VErr × File × FileSystem) :
    Option VErr × File × FileSystem :=
  match r with
  | (some e, f1, fs1) => (some e, f1, fs1)
  | (none, f1, fs1) =>
    if all then
      (none, { f1 with info := f1.info.setSize f1.offset }, fs1.SaveFileTree)
    else (none, f1, fs1)

/-- `File.flush(all)` from `file.go`: the content-type sniff, then the page
loop with fuel `buf.length + 1` (each iteration under a valid page size
consumes at least one byte, so this covers every terminating run), then the
size-and-persist epilogue. -/
def File.flush (fs : FileSystem) (f : File) (all : Bool) : Option VErr × File × FileSystem :=
  flushFinish all (flushLoop all ((flushMime f).buf.length + 1) fs (flushMime f))

/-- `File.Write(p)` from `file.go`: handles without the write-only bit get
`os.ErrPermission`; otherwise append `p` to the staging buffer and flush full
pages; on a flush error report `len(p) - buf.Len()` bytes accounted for
(clamped at 0, which Nat subtraction already does). -/
def File.Write (fs : FileSystem) (f : File) (p : Bytes) : Nat × Option VErr × File × FileSystem :=
  if Nat.land f.flag WriteOnly = 0 then (0, some VErr.permission, f, fs)
  else
    let f1 := { f with buf := f.buf ++ p }
    match File.flush fs f1 false with
    | (none, f2, fs2) => (p.length, none, f2, fs2)
    | (some e, f2, fs2) => (p.length - f2.buf.length, some e, f2, fs2)

/-- `File.Close()` from `file.go`: clear the node's busy flag; a write-only
handle with a non-empty staging buffer returns `flush(true)` directly (note:
only then is the size set and the tree persisted); every other handle merely
resets its offset to 0 — the staging buffer is left as it is. -/
def File.Close (fs : FileSystem) (f : File) : Option VErr × File × FileSystem :=
  let f0 := { f with info := { f.info with busy := false } }
  if Nat.land f.flag WriteOnly ≠ 0 ∧ 0 < f0.buf.length then
    File.flush fs f0 true
  else
    (none, { f0 with offset := 0 }, fs)

/-- The write half of the spec's round-trip pipeline: open a fresh write
handle on a new file in a fresh file system of page size `P`, write `B`,
close.  Returns (first error, final node, final file system). -/
def runWriteClose (P : Int) (B : Bytes) : Option VErr × FileInfo × FileSystem :=
  let fs := initFS P
  let f := openHandle newFileInfo WriteOnly
  match File.Write fs f B with
  | (_, some e, f1, fs1) => (some e, f1.info, fs1)
  | (_, none, f1, fs1) =>
    match File.Close fs1 f1 with
    | (e2, f2, fs2) => (e2, f2.info, fs2)

/-- The read half of the round-trip pipeline: reopen the node read-only and
issue one `Read` for `m` bytes; returns (bytes delivered, error). -/
def runReadAll (fs : FileSystem) (info : FileInfo) (m : Nat) : Bytes × Option VErr :=
  let f := openHandle info ReadOnly
  let r := File.Read fs f m
  (r.2.1, r.2.2.1)

end VFS

namespace VFS

/-! ### Basic facts about the embedding -/

/-- `ReadOnly` is the zero flag, so masking any flag with it gives 0. -/
theorem land_readOnly (n : Nat) : Nat.land n ReadOnly = 0 := by
  simp [ReadOnly, Nat.land]

/-- `newFile` never panics: its guard requires a non-zero `ReadOnly` mask,
and `ReadOnly = 0`. -/
theorem newFile_eq_some (info : FileInfo) (flag : Nat) :
    newFile info flag =
      some { buf := [], offset := 0,
             info := if Nat.land flag WriteOnly ≠ 0 then { info with busy := true } else info,
             flag := flag } := by
  simp [newFile, land_readOnly]

/-- `openHandle` is the unique handle `newFile` returns. -/
theorem openHandle_eq (info : FileInfo) (flag : Nat) :
    openHandle info flag =
      { buf := [], offset := 0,
        info := if Nat.land flag WriteOnly ≠ 0 then { info with busy := true } else info,
        flag := flag } := by
  simp [openHandle, newFile_eq_some]

/-- Truncating a node that already has no pages and size 0 changes nothing. -/
theorem truncate_eq_self (i : FileInfo) (hp : i.pages = []) (hs : i.size = 0) :
    i.truncate = i := by
  cases i
  simp_all [FileInfo.truncate]

/-- Go's `int64` division agrees with euclidean division on non-negative
operands. -/
theorem tdiv_eq_ediv_of_nonneg (a b : Int) (h : 0 ≤ a) (h2 : 0 ≤ b) :
    Int.tdiv a b = a / b := by
  unfold Int.tdiv
  match a, h with
  | Int.ofNat n, _ =>
    match b, h2 with
    | Int.ofNat m, _ => simp [Int.ediv]

/-! ### Claim C8: permission checks -/

/-- C8: `Read` on a write-only handle and `Write` on a handle without the
write-only bit both fail with the `Permission` error, return a zero byte
count, and leave the handle (offset, staging buffer, node) and the file
system untouched. -/
theorem claim8_permission (fs : FileSystem) (f : File) (m : Nat) (p : Bytes) :
    (Nat.land f.flag WriteOnly ≠ 0 → File.Read fs f m = (0, [], some VErr.permission, f)) ∧
    (Nat.land f.flag WriteOnly = 0 → File.Write fs f p = (0, some VErr.permission, f, fs)) := by
  constructor
  · intro h
    simp [File.Read, h]
  · intro h
    simp [File.Write, h]

/-- Witness for C8 at a concrete write-only and a concrete read-only handle. -/
theorem claim8_permission_witness :
    File.Read (initFS MinPageSize) (openHandle newFileInfo WriteOnly) 3 =
      (0, [], some VErr.permission, openHandle newFileInfo WriteOnly) ∧
    File.Write (initFS MinPageSize) (openHandle newFileInfo ReadOnly) [1] =
      (0, some VErr.permission, openHandle newFileInfo ReadOnly, initFS MinPageSize) :=
  ⟨(claim8_permission (initFS MinPageSize) (openHandle newFileInfo WriteOnly) 3 [1]).1
      (by decide),
   (claim8_permission (initFS MinPageSize) (openHandle newFileInfo ReadOnly) 3 [1]).2
      (by decide)⟩

/-! ### Claim C10: Readdir -/

/-- C10: `Readdir` ignores its `count` argument (any two counts give the
same result), returns the complete child list of a directory node in one
call, and fails with the not-a-directory error on non-directory nodes. -/
theorem claim10_readdir (f : File) (c c' : Int) :
    File.Readdir f c = File.Readdir f c' ∧
    (f.info.IsDir = true → File.Readdir f c = Except.ok f.info.files) ∧
    (f.info.IsDir = false → File.Readdir f c = Except.error VErr.notDir) := by
  refine ⟨rfl, ?_, ?_⟩ <;> intro h <;> simp [File.Readdir, h]

/-- Witness for C10: a directory with children `[3, 4]`, read with a negative
count, yields the full listing; a plain file node fails. -/
theorem claim10_readdir_witness :
    File.Readdir (openHandle { newFileInfo with isDir := true, files := [3, 4] } ReadOnly) (-5) =
      Except.ok [3, 4] ∧
    File.Readdir (openHandle newFileInfo ReadOnly) 1 = Except.error VErr.notDir :=
  ⟨(claim10_readdir (openHandle { newFileInfo with isDir := true, files := [3, 4] } ReadOnly)
      (-5) 0).2.1 (by decide),
   (claim10_readdir (openHandle newFileInfo ReadOnly) 1 0).2.2 (by decide)⟩

/-! ### Claim C9: the `newFile` flag guard -/

/-- C9 counterexample: constructing a handle with the combined
`ReadOnly|WriteOnly` flag does **not** panic — because `ReadOnly` is the zero
flag, the guard `flag&ReadOnly != 0 && flag&WriteOnly != 0` can never fire;
`newFile` returns an ordinary write handle. -/
theorem claim9_no_panic_cex :
    newFile newFileInfo (Nat.lor ReadOnly WriteOnly) =
      some { buf := [], offset := 0, info := { newFileInfo with busy := true }, flag := 1 } := by
  decide

/-- C9 amended: `newFile` accepts every flag value (the panic guard is
unsatisfiable since no flag has a non-zero `ReadOnly` mask); a handle's mode
is decided solely by the `WriteOnly` bit. -/
theorem claim9_amended (info : FileInfo) (flag : Nat) :
    (∃ f, newFile info flag = some f) ∧ Nat.land flag ReadOnly = 0 :=
  ⟨⟨_, newFile_eq_some info flag⟩, land_readOnly flag⟩

/-! ### Claim C3, counterexample part -/

/-- C3 counterexample: on a fresh empty file (size 0), `Seek(0, SeekStart)`
computes the absolute offset 0, which lies within `[0, size]`, yet the call
fails with `io.EOF`: the code rejects any raw `offset >= size` before even
computing the absolute position. -/
theorem claim3_seek_cex :
    (0 : Int) ≤ (openHandle newFileInfo ReadOnly).info.Size ∧
    File.Seek (openHandle newFileInfo ReadOnly) 0 SeekStart =
      (0, some VErr.eof, openHandle newFileInfo ReadOnly) := by
  constructor
  · decide
  · decide

end VFS

namespace VFS

/-! ### Frame facts for the flush path: flushing never touches the busy flag,
the node kind, the handle's mode, the page size or the persist counter. -/

/-- One flush-loop body preserves busy, node kind, mode, page size and the
persist counter. -/
theorem flushStep_frame (fs : FileSystem) (f : File) (c r : Bytes) :
    (flushStep fs f c r).1.info.busy = f.info.busy ∧
    (flushStep fs f c r).1.info.isDir = f.info.isDir ∧
    (flushStep fs f c r).1.flag = f.flag ∧
    (flushStep fs f c r).2.pageSize = fs.pageSize ∧
    (flushStep fs f c r).2.saveCount = fs.saveCount := by
  simp only [flushStep]
  split
  · split <;> simp [FileInfo.truncate, FileInfo.addPage]
  · simp

/-- The flush loop preserves busy, node kind and the handle's mode. -/
theorem flushLoop_frame (all : Bool) (fuel : Nat) : ∀ (fs : FileSystem) (f : File),
    ((flushLoop all fuel fs f).2.1.info.busy = f.info.busy) ∧
    ((flushLoop all fuel fs f).2.1.info.isDir = f.info.isDir) ∧
    ((flushLoop all fuel fs f).2.1.flag = f.flag) := by
  induction fuel with
  | zero => intro fs f; simp [flushLoop]
  | succ fuel ih =>
    intro fs f
    simp only [flushLoop]
    split
    · rcases hbr : bufferRead f.buf fs.pageSize.toNat with ⟨chunk, rest, rerr⟩
      have hstep := flushStep_frame fs f chunk rest
      rcases rerr with _ | e
      · have hmain := ih (flushStep fs f chunk rest).2 (flushStep fs f chunk rest).1
        exact ⟨hmain.1.trans hstep.1, hmain.2.1.trans hstep.2.1, hmain.2.2.trans hstep.2.2.1⟩
      · cases e <;> simp_all
    · simp

/-- `File.flush` preserves busy, node kind and the handle's mode. -/
theorem flush_frame (fs : FileSystem) (f : File) (all : Bool) :
    (File.flush fs f all).2.1.info.busy = f.info.busy ∧
    (File.flush fs f all).2.1.info.isDir = f.info.isDir ∧
    (File.flush fs f all).2.1.flag = f.flag := by
  have hm : (flushMime f).info.busy = f.info.busy ∧
      (flushMime f).info.isDir = f.info.isDir ∧ (flushMime f).flag = f.flag := by
    simp only [flushMime]
    split <;> simp [FileInfo.SetMIMEType]
  have hfr := flushLoop_frame all ((flushMime f).buf.length + 1) fs (flushMime f)
  simp only [File.flush]
  rcases hl : flushLoop all ((flushMime f).buf.length + 1) fs (flushMime f) with ⟨e, f1, fs1⟩
  rw [hl] at hfr
  rcases e with _ | e
  · simp only [flushFinish]
    split <;> simp_all [FileInfo.setSize]
  · simp only [flushFinish]
    simp_all

end VFS

namespace VFS

/-! ### Claim C6: the busy flag -/

/-- C6 counterexample: a read-only handle is opened on a node whose busy
flag is set (as a still-open write handle would leave it); closing the
**read** handle clears the flag — `Close` executes `f.info.busy = false`
unconditionally, so read handles do modify the busy flag. -/
theorem claim6_busy_cex :
    (openHandle { newFileInfo with busy := true } ReadOnly).info.busy = true ∧
    Nat.land (openHandle { newFileInfo with busy := true } ReadOnly).flag WriteOnly = 0 ∧
    ((File.Close (initFS MinPageSize)
        (openHandle { newFileInfo with busy := true } ReadOnly)).2.1).info.busy = false := by
  refine ⟨by decide, by decide, by decide⟩

/-- C6 amended: creating a write handle sets the node's busy flag and
creating a read handle leaves the node untouched, but `Close` clears the
busy flag unconditionally — for write **and** read handles alike (so a read
handle's close wipes a busy flag owned by a concurrent write handle). -/
theorem claim6_busy_amended :
    (∀ (info : FileInfo) (flag : Nat) (f : File), newFile info flag = some f →
       ((Nat.land flag WriteOnly ≠ 0 → f.info.busy = true) ∧
        (Nat.land flag WriteOnly = 0 → f.info = info))) ∧
    (∀ (fs : FileSystem) (g : File), ((File.Close fs g).2.1).info.busy = false) := by
  constructor
  · intro info flag f hf
    rw [newFile_eq_some] at hf
    injection hf with hf
    subst hf
    constructor
    · intro h
      simp [h]
    · intro h
      simp [h]
  · intro fs g
    simp only [File.Close]
    split
    · have := (flush_frame fs { g with info := { g.info with busy := false } } true).1
      simp_all
    · simp

/-- Witness for C6: a concrete write handle starts busy; a concrete close
ends non-busy. -/
theorem claim6_busy_amended_witness :
    ∃ f, newFile newFileInfo WriteOnly = some f ∧ f.info.busy = true ∧
      ((File.Close (initFS MinPageSize) f).2.1).info.busy = false := by
  refine ⟨_, newFile_eq_some newFileInfo WriteOnly, ?_, ?_⟩
  · exact (claim6_busy_amended.1 newFileInfo WriteOnly _
      (newFile_eq_some newFileInfo WriteOnly)).1 (by decide)
  · exact claim6_busy_amended.2 (initFS MinPageSize) _

/-! ### Claim C7: no closed state -/

/-- A two-byte file whose single page sits in the Blob Store, used to probe
reads after close. -/
def closedProbeInfo : FileInfo := { newFileInfo with pages := [0], size := 2 }

/-- File system holding `closedProbeInfo`'s page. -/
def closedProbeFS : FileSystem :=
  { pageSize := MinPageSize, storage := [(0, [8, 9])], nextPage := 1, saveCount := 0 }

/-- C7 counterexample: `Close` a read handle, then `Read` it — the read
**succeeds** (1 byte, the file's first byte, no error): there is no closed
state, so operations on a closed handle do not fail. -/
theorem claim7_closed_cex :
    (File.Close closedProbeFS (openHandle closedProbeInfo ReadOnly)).1 = none ∧
    (File.Read closedProbeFS
        ((File.Close closedProbeFS (openHandle closedProbeInfo ReadOnly)).2.1) 1) =
      (1, [8], none,
       { buf := [9], offset := 1, info := { closedProbeInfo with busy := false },
         flag := ReadOnly }) := by
  refine ⟨by decide, by decide⟩

/-- C7 amended: a handle carries no closed state.  For a handle without the
write-only bit, `Close` merely resets the offset to 0 and clears the node's
busy flag (keeping the staging buffer), it can be repeated with the same
outcome (no once-only transition), and operations on the "closed" handle are
exactly operations on that ordinary reset handle. -/
theorem claim7_no_closed_state (fs : FileSystem) (f : File)
    (h : Nat.land f.flag WriteOnly = 0) :
    File.Close fs f =
      (none, { f with offset := 0, info := { f.info with busy := false } }, fs) ∧
    File.Close fs ((File.Close fs f).2.1) =
      (none, { f with offset := 0, info := { f.info with busy := false } }, fs) ∧
    (∀ m, File.Read fs ((File.Close fs f).2.1) m =
      File.Read fs { f with offset := 0, info := { f.info with busy := false } } m) := by
  have h1 : File.Close fs f =
      (none, { f with offset := 0, info := { f.info with busy := false } }, fs) := by
    simp [File.Close, h]
  refine ⟨h1, ?_, ?_⟩
  · rw [h1]
    simp [File.Close, h]
  · intro m
    rw [h1]

/-- Witness for C7: the concrete probe handle. -/
theorem claim7_no_closed_state_witness :
    File.Close closedProbeFS (openHandle closedProbeInfo ReadOnly) =
      (none,
       { (openHandle closedProbeInfo ReadOnly) with
          offset := 0,
          info := { (openHandle closedProbeInfo ReadOnly).info with busy := false } },
       closedProbeFS) :=
  (claim7_no_closed_state closedProbeFS (openHandle closedProbeInfo ReadOnly)
      (by decide)).1

end VFS

namespace VFS

/-! ### Claim C3, amended part -/

/-- Spec-side definition for comparison: the absolute position `seek`
computes for each origin — `offset` for seek-start, `current + offset` for
seek-current, and `size + offset` for seek-end as the source specifies it;
`none` for an invalid origin. -/
def seekAbs (f : File) (offset whence : Int) : Option Int :=
  if whence = SeekStart then some offset
  else if whence = SeekCurrent then some (f.offset + offset)
  else if whence = SeekEnd then some (f.info.Size + offset)
  else none

/-- C3 amended: `Seek` always fails on directories and on write handles.  On
a read handle over a file node it succeeds **iff** the raw `offset` argument
is `< size` (an extra precondition the code checks first, rejecting e.g.
`Seek(size, SeekStart)` and any seek on an empty file) and the absolute
position exists and lies within `[0, size]`; on success it returns the
absolute position, invalidates the staging buffer and moves the cursor
there; on failure the handle — its offset in particular — is unchanged. -/
theorem claim3_seek_amended (f : File) (off wh : Int) :
    (f.info.IsDir = true → File.Seek f off wh = (0, some VErr.cannotSeekDir, f)) ∧
    (f.info.IsDir = false → Nat.land f.flag WriteOnly ≠ 0 →
        File.Seek f off wh = (0, some VErr.cannotSeekWrite, f)) ∧
    (f.info.IsDir = false → Nat.land f.flag WriteOnly = 0 →
      ((File.Seek f off wh).2.1 = none ↔
          off < f.info.Size ∧
          ∃ a, seekAbs f off wh = some a ∧ 0 ≤ a ∧ a ≤ f.info.Size) ∧
      (∀ a, seekAbs f off wh = some a → (File.Seek f off wh).2.1 = none →
          File.Seek f off wh = (a, none, { f with buf := [], offset := a })) ∧
      ((File.Seek f off wh).2.1 ≠ none → (File.Seek f off wh).2.2 = f)) := by
  refine ⟨?_, ?_, ?_⟩
  · intro h
    simp [File.Seek, h]
  · intro h hw
    simp [File.Seek, h, hw]
  · intro hd hw
    by_cases hoff : off ≥ f.info.Size
    · have hres : File.Seek f off wh = (f.offset, some VErr.eof, f) := by
        simp [File.Seek, SeekStart, SeekCurrent, SeekEnd, hd, hw, hoff]
      rw [hres]
      refine ⟨by simp [seekAbs]; intro h; omega, ?_, fun _ => rfl⟩
      intro a _ h
      simp at h
    · by_cases h0 : wh = SeekStart
      · have habs : seekAbs f off wh = some off := by simp [seekAbs, SeekStart, SeekCurrent, SeekEnd, h0]
        by_cases hneg : off < 0
        · have hres : File.Seek f off wh = (f.offset, some (VErr.negativePosition off), f) := by
            simp [File.Seek, SeekStart, SeekCurrent, SeekEnd, hd, hw, hoff, h0, hneg]
          rw [hres, habs]
          refine ⟨?_, ?_, fun _ => rfl⟩
          · simp only [reduceCtorEq, false_iff, not_and]
            rintro _ ⟨a, ha, hx, hy⟩
            simp only [Option.some.injEq] at ha
            omega
          · intro a _ h
            simp at h
        · by_cases hover : off > f.info.Size
          · have hres : File.Seek f off wh = (f.offset, some (VErr.overflow off), f) := by
              simp [File.Seek, SeekStart, SeekCurrent, SeekEnd, hd, hw, hoff, h0, hneg, hover]
            rw [hres, habs]
            refine ⟨?_, ?_, fun _ => rfl⟩
            · simp only [reduceCtorEq, false_iff, not_and]
              rintro _ ⟨a, ha, hx, hy⟩
              simp only [Option.some.injEq] at ha
              omega
            · intro a _ h
              simp at h
          · have hres : File.Seek f off wh =
                (off, none, { f with buf := [], offset := off }) := by
              simp [File.Seek, SeekStart, SeekCurrent, SeekEnd, hd, hw, hoff, h0, hneg, hover]
            rw [hres, habs]
            refine ⟨?_, ?_, by simp⟩
            · simp only [true_iff]
              exact ⟨by omega, off, rfl, by omega, by omega⟩
            · rintro a ha _
              simp only [Option.some.injEq] at ha
              subst ha
              rfl
      · by_cases h1 : wh = SeekCurrent
        · have habs : seekAbs f off wh = some (f.offset + off) := by
            simp [seekAbs, SeekStart, SeekCurrent, SeekEnd, h0, h1]
          by_cases hneg : f.offset + off < 0
          · have hres : File.Seek f off wh =
                (f.offset, some (VErr.negativePosition (f.offset + off)), f) := by
              simp [File.Seek, SeekStart, SeekCurrent, SeekEnd, hd, hw, hoff, h0, h1, hneg]
            rw [hres, habs]
            refine ⟨?_, ?_, fun _ => rfl⟩
            · simp only [reduceCtorEq, false_iff, not_and]
              rintro _ ⟨a, ha, hx, hy⟩
              simp only [Option.some.injEq] at ha
              omega
            · intro a _ h
              simp at h
          · by_cases hover : f.offset + off > f.info.Size
            · have hres : File.Seek f off wh =
                  (f.offset, some (VErr.overflow (f.offset + off)), f) := by
                simp [File.Seek, SeekStart, SeekCurrent, SeekEnd, hd, hw, hoff, h0, h1, hneg, hover]
              rw [hres, habs]
              refine ⟨?_, ?_, fun _ => rfl⟩
              · simp only [reduceCtorEq, false_iff, not_and]
                rintro _ ⟨a, ha, hx, hy⟩
                simp only [Option.some.injEq] at ha
                omega
              · intro a _ h
                simp at h
            · have hres : File.Seek f off wh =
                  (f.offset + off, none, { f with buf := [], offset := f.offset + off }) := by
                simp [File.Seek, SeekStart, SeekCurrent, SeekEnd, hd, hw, hoff, h0, h1, hneg, hover]
              rw [hres, habs]
              refine ⟨?_, ?_, by simp⟩
              · simp only [true_iff]
                exact ⟨by omega, f.offset + off, rfl, by omega, by omega⟩
              · rintro a ha _
                simp only [Option.some.injEq] at ha
                subst ha
                rfl
        · by_cases h2 : wh = SeekEnd
          · have habs : seekAbs f off wh = some (f.info.Size + off) := by
              simp [seekAbs, SeekStart, SeekCurrent, SeekEnd, h0, h1, h2]
            by_cases hneg : f.info.Size + off < 0
            · have hres : File.Seek f off wh =
                  (f.offset, some (VErr.negativePosition (f.info.Size + off)), f) := by
                simp [File.Seek, SeekStart, SeekCurrent, SeekEnd, hd, hw, hoff, h0, h1, h2, hneg]
              rw [hres, habs]
              refine ⟨?_, ?_, fun _ => rfl⟩
              · simp only [reduceCtorEq, false_iff, not_and]
                rintro _ ⟨a, ha, hx, hy⟩
                simp only [Option.some.injEq] at ha
                omega
              · intro a _ h
                simp at h
            · by_cases hover : f.info.Size + off > f.info.Size
              · have hres : File.Seek f off wh =
                    (f.offset, some (VErr.overflow (f.info.Size + off)), f) := by
                  simp [File.Seek, SeekStart, SeekCurrent, SeekEnd, hd, hw, hoff, h0, h1, h2, hneg, hover]
                rw [hres, habs]
                refine ⟨?_, ?_, fun _ => rfl⟩
                · simp only [reduceCtorEq, false_iff, not_and]
                  rintro _ ⟨a, ha, hx, hy⟩
                  simp only [Option.some.injEq] at ha
                  omega
                · intro a _ h
                  simp at h
              · have hres : File.Seek f off wh =
                    (f.info.Size + off, none,
                     { f with buf := [], offset := f.info.Size + off }) := by
                  simp [File.Seek, SeekStart, SeekCurrent, SeekEnd, hd, hw, hoff, h0, h1, h2, hneg, hover]
                rw [hres, habs]
                refine ⟨?_, ?_, by simp⟩
                · simp only [true_iff]
                  exact ⟨by omega, f.info.Size + off, rfl, by omega, by omega⟩
                · rintro a ha _
                  simp only [Option.some.injEq] at ha
                  subst ha
                  rfl
          · have h0' : wh ≠ (0 : Int) := h0
            have h1' : wh ≠ (1 : Int) := h1
            have h2' : wh ≠ (2 : Int) := h2
            have habs : seekAbs f off wh = none := by
              simp [seekAbs, SeekStart, SeekCurrent, SeekEnd, h0', h1', h2']
            have hres : File.Seek f off wh =
                (f.offset, some (VErr.invalidWhence wh), f) := by
              simp [File.Seek, SeekStart, SeekCurrent, SeekEnd, hd, hw, hoff, h0', h1', h2']
            rw [hres, habs]
            refine ⟨?_, ?_, fun _ => rfl⟩
            · simp
            · intro a ha
              simp at ha

/-- Witness for C3: on a 3-byte file, `Seek(1, SeekStart)` succeeds and
moves the cursor to 1 with an invalidated buffer. -/
theorem claim3_seek_amended_witness :
    File.Seek (openHandle { newFileInfo with size := 3, pages := [0] } ReadOnly) 1 SeekStart =
      (1, none,
       { (openHandle { newFileInfo with size := 3, pages := [0] } ReadOnly) with
          buf := [], offset := 1 }) := by
  have h := (claim3_seek_amended
      (openHandle { newFileInfo with size := 3, pages := [0] } ReadOnly) 1 SeekStart).2.2
      (by decide) (by decide)
  refine h.2.1 1 (by decide) ?_
  rw [(h.1).mpr ⟨by decide, 1, by decide, by decide, by decide⟩]

end VFS

namespace VFS

/-! ### Full characterization of the page-flush loop (all = false) -/

/-- Looking up the key just put returns its value. -/
theorem storageGet_put_same (s : List (Nat × Bytes)) (k : Nat) (v : Bytes) :
    storageGet (storagePut s k v) k = some v := by
  simp [storagePut, storageGet]

/-- Looking up a different key is unaffected by a put. -/
theorem storageGet_put_ne (s : List (Nat × Bytes)) (k k' : Nat) (v : Bytes)
    (h : k ≠ k') : storageGet (storagePut s k v) k' = storageGet s k' := by
  simp [storagePut, storageGet, h]

/-- What one run of the flush loop with `all = false` does, in full: it never
errs; it cuts `n = ⌊buf.length / pageSize⌋` full pages off the front of the
staging buffer, leaving the remainder; it advances the offset by `n·pageSize`
bytes; it appends the `n` fresh page keys `nextPage, …, nextPage+n-1` to the
node's page list (earlier entries untouched); it stores chunk `j` — bytes
`[j·pageSize, (j+1)·pageSize)` of the buffer — under key `nextPage + j`
without disturbing previously used keys; and it leaves size, node kind, page
size and the persist counter alone.  The hypothesis on `offset = 0` renders
the code's `truncate()` call a no-op exactly as in every reachable
fresh-write state. -/
theorem flushLoop_false_spec (fuel : Nat) : ∀ (fs : FileSystem) (f : File),
    1 ≤ fs.pageSize →
    0 ≤ f.offset →
    f.buf.length < fuel →
    (f.offset = 0 → f.info.pages = [] ∧ f.info.size = 0) →
    (flushLoop false fuel fs f).1 = none ∧
    (flushLoop false fuel fs f).2.1.buf =
      f.buf.drop (f.buf.length / fs.pageSize.toNat * fs.pageSize.toNat) ∧
    (flushLoop false fuel fs f).2.1.offset =
      f.offset + ((f.buf.length / fs.pageSize.toNat * fs.pageSize.toNat : Nat) : Int) ∧
    (flushLoop false fuel fs f).2.1.info.pages.length =
      f.info.pages.length + f.buf.length / fs.pageSize.toNat ∧
    (∀ j, j < f.info.pages.length →
       (flushLoop false fuel fs f).2.1.info.pages[j]? = f.info.pages[j]?) ∧
    (∀ j, j < f.buf.length / fs.pageSize.toNat →
       (flushLoop false fuel fs f).2.1.info.pages[f.info.pages.length + j]? =
         some (fs.nextPage + j)) ∧
    (flushLoop false fuel fs f).2.1.info.size = f.info.size ∧
    (flushLoop false fuel fs f).2.1.info.isDir = f.info.isDir ∧
    (flushLoop false fuel fs f).2.2.pageSize = fs.pageSize ∧
    (flushLoop false fuel fs f).2.2.nextPage =
      fs.nextPage + f.buf.length / fs.pageSize.toNat ∧
    (flushLoop false fuel fs f).2.2.saveCount = fs.saveCount ∧
    (∀ j, j < f.buf.length / fs.pageSize.toNat →
       storageGet (flushLoop false fuel fs f).2.2.storage (fs.nextPage + j) =
         some ((f.buf.drop (j * fs.pageSize.toNat)).take fs.pageSize.toNat)) ∧
    (∀ k, k < fs.nextPage →
       storageGet (flushLoop false fuel fs f).2.2.storage k = storageGet fs.storage k) := by
  induction fuel with
  | zero =>
    intro fs f hP ho hfuel htr
    omega
  | succ fuel ih =>
    intro fs f hP ho hfuel htr
    have hPn : 1 ≤ fs.pageSize.toNat := by omega
    by_cases hcond : fs.pageSize ≤ (f.buf.length : Int)
    case neg =>
      have hlen : f.buf.length < fs.pageSize.toNat := by omega
      have hn : f.buf.length / fs.pageSize.toNat = 0 := Nat.div_eq_of_lt hlen
      have hexit : flushLoop false (fuel + 1) fs f = (none, f, fs) := by
        simp [flushLoop, hcond]
      rw [hexit]
      simp [hn]
    case pos =>
      have hlen : fs.pageSize.toNat ≤ f.buf.length := by omega
      have hne : ¬f.buf.length = 0 := by omega
      have hbr : bufferRead f.buf fs.pageSize.toNat =
          (f.buf.take fs.pageSize.toNat, f.buf.drop fs.pageSize.toNat, none) := by
        simp [bufferRead, hne]
      have hchunklen : (f.buf.take fs.pageSize.toNat).length = fs.pageSize.toNat := by
        simp [List.length_take]
        omega
      have hstep : flushStep fs f (f.buf.take fs.pageSize.toNat) (f.buf.drop fs.pageSize.toNat) =
          ({ f with buf := f.buf.drop fs.pageSize.toNat,
                    offset := f.offset + ((f.buf.take fs.pageSize.toNat).length : Int),
                    info := f.info.addPage fs.nextPage },
           { fs with storage := storagePut fs.storage fs.nextPage (f.buf.take fs.pageSize.toNat),
                     nextPage := fs.nextPage + 1 }) := by
        simp only [flushStep]
        rw [if_pos (by omega : 0 < (f.buf.take fs.pageSize.toNat).length)]
        by_cases h0 : f.offset = 0
        · rw [if_pos h0, truncate_eq_self f.info (htr h0).1 (htr h0).2]
          simp [FileSystem.EncryptPage]
        · rw [if_neg h0]
          simp [FileSystem.EncryptPage]
      have hunfold : flushLoop false (fuel + 1) fs f =
          flushLoop false fuel
            { fs with storage := storagePut fs.storage fs.nextPage (f.buf.take fs.pageSize.toNat),
                      nextPage := fs.nextPage + 1 }
            { f with buf := f.buf.drop fs.pageSize.toNat,
                     offset := f.offset + ((f.buf.take fs.pageSize.toNat).length : Int),
                     info := f.info.addPage fs.nextPage } := by
        simp only [flushLoop]
        rw [if_pos (Or.inr hcond), hbr, hstep]
      rw [hunfold]
      obtain ⟨C1, C2, C3, C4, C5, C6, C7, C8, C9, C10, C11, C12, C13⟩ :=
        ih { fs with storage := storagePut fs.storage fs.nextPage (f.buf.take fs.pageSize.toNat),
                     nextPage := fs.nextPage + 1 }
           { f with buf := f.buf.drop fs.pageSize.toNat,
                    offset := f.offset + ((f.buf.take fs.pageSize.toNat).length : Int),
                    info := f.info.addPage fs.nextPage }
           (by simpa using hP)
           (by simp only []; omega)
           (by simp only [List.length_drop]; omega)
           (by intro h; exfalso; simp only [] at h; omega)
      have hdiv : f.buf.length / fs.pageSize.toNat =
          (f.buf.length - fs.pageSize.toNat) / fs.pageSize.toNat + 1 :=
        Nat.div_eq_sub_div (by omega) hlen
      have hdroplen : (f.buf.drop fs.pageSize.toNat).length = f.buf.length - fs.pageSize.toNat := by
        simp [List.length_drop]
      have hmul : f.buf.length / fs.pageSize.toNat * fs.pageSize.toNat =
          fs.pageSize.toNat +
            (f.buf.length - fs.pageSize.toNat) / fs.pageSize.toNat * fs.pageSize.toNat := by
        rw [hdiv]
        ring
      have hpageslen : (f.info.addPage fs.nextPage).pages.length = f.info.pages.length + 1 := by
        simp [FileInfo.addPage]
      refine ⟨C1, ?_, ?_, ?_, ?_, ?_, ?_, ?_, ?_, ?_, ?_, ?_, ?_⟩
      · rw [C2]
        simp only [hdroplen, List.drop_drop]
        rw [hmul]
      · rw [C3]
        simp only [hdroplen, hchunklen]
        rw [hmul]
        push_cast
        ring
      · rw [C4, hpageslen, hdroplen, hdiv]
        ring
      · intro j hj
        have := C5 j (by rw [hpageslen]; omega)
        rw [this]
        exact List.getElem?_append_left hj
      · intro j hj
        by_cases hj0 : j = 0
        · subst hj0
          have h5 := C5 f.info.pages.length (by rw [hpageslen]; omega)
          simp only [Nat.add_zero]
          rw [h5]
          simp [FileInfo.addPage]
        · obtain ⟨j', rfl⟩ : ∃ j'', j = j'' + 1 := ⟨j - 1, by omega⟩
          have hj' : j' < (f.buf.drop fs.pageSize.toNat).length / fs.pageSize.toNat := by
            rw [hdroplen]
            omega
          have h6 := C6 j' hj'
          rw [hpageslen] at h6
          have hidx : f.info.pages.length + (j' + 1) = f.info.pages.length + 1 + j' := by
            omega
          rw [hidx, h6]
          dsimp only
          simp only [Option.some.injEq]
          omega
      · rw [C7]
        simp [FileInfo.addPage]
      · rw [C8]
        simp [FileInfo.addPage]
      · rw [C9]
      · rw [C10]
        dsimp only
        rw [hdroplen, hdiv]
        ring
      · rw [C11]
      · intro j hj
        by_cases hj0 : j = 0
        · subst hj0
          have h13 := C13 fs.nextPage (by dsimp only; omega)
          simp only [Nat.add_zero]
          rw [h13]
          dsimp only
          rw [storageGet_put_same]
          simp
        · obtain ⟨j', rfl⟩ : ∃ j'', j = j'' + 1 := ⟨j - 1, by omega⟩
          have hj' : j' < (f.buf.drop fs.pageSize.toNat).length / fs.pageSize.toNat := by
            rw [hdroplen]
            omega
          have h12 := C12 j' hj'
          have hidx : fs.nextPage + (j' + 1) = fs.nextPage + 1 + j' := by omega
          rw [hidx, h12]
          dsimp only
          rw [List.drop_drop]
          have harith : fs.pageSize.toNat + j' * fs.pageSize.toNat =
              (j' + 1) * fs.pageSize.toNat := by
            ring
          rw [harith]
      · intro k hk
        have h13 := C13 k (by dsimp only; omega)
        rw [h13]
        dsimp only
        rw [storageGet_put_ne _ _ _ _ (by omega)]

end VFS

namespace VFS

/-- With `all = false` the flush epilogue is the identity: no size update, no
persistence. -/
theorem flushFinish_false_id (r : Option VErr × File × FileSystem) :
    flushFinish false r = r := by
  rcases r with ⟨e, f1, fs1⟩
  rcases e with _ | e <;> simp [flushFinish]

/-- A flush-loop body always leaves exactly the buffer rest it was handed. -/
theorem flushStep_buf (fs : FileSystem) (f : File) (c r : Bytes) :
    (flushStep fs f c r).1.buf = r := by
  simp only [flushStep]
  split <;> rfl

/-- The content-type sniff touches only the node's content type: buffer,
offset, page list, size, kind, busy and flag are untouched. -/
theorem flushMime_fields (f : File) :
    (flushMime f).buf = f.buf ∧ (flushMime f).offset = f.offset ∧
    (flushMime f).info.pages = f.info.pages ∧ (flushMime f).info.size = f.info.size ∧
    (flushMime f).info.isDir = f.info.isDir ∧ (flushMime f).info.busy = f.info.busy ∧
    (flushMime f).flag = f.flag := by
  simp only [flushMime]
  split <;> simp [FileInfo.SetMIMEType]

/-- The flush loop with `all = false` and a valid page size never errs and
always leaves fewer than `pageSize` bytes in the staging buffer. -/
theorem flushLoop_false_errbuf (fuel : Nat) : ∀ (fs : FileSystem) (f : File),
    1 ≤ fs.pageSize →
    f.buf.length < fuel →
    (flushLoop false fuel fs f).1 = none ∧
    (((flushLoop false fuel fs f).2.1.buf.length : Int) < fs.pageSize) := by
  induction fuel with
  | zero =>
    intro fs f hP hfuel
    omega
  | succ fuel ih =>
    intro fs f hP hfuel
    by_cases hcond : fs.pageSize ≤ (f.buf.length : Int)
    case neg =>
      have hexit : flushLoop false (fuel + 1) fs f = (none, f, fs) := by
        simp [flushLoop, hcond]
      rw [hexit]
      exact ⟨rfl, by dsimp only; omega⟩
    case pos =>
      have hPn : 1 ≤ fs.pageSize.toNat := by omega
      have hlen : fs.pageSize.toNat ≤ f.buf.length := by omega
      have hne : ¬f.buf.length = 0 := by omega
      have hbr : bufferRead f.buf fs.pageSize.toNat =
          (f.buf.take fs.pageSize.toNat, f.buf.drop fs.pageSize.toNat, none) := by
        simp [bufferRead, hne]
      have hunfold : flushLoop false (fuel + 1) fs f =
          flushLoop false fuel
            (flushStep fs f (f.buf.take fs.pageSize.toNat) (f.buf.drop fs.pageSize.toNat)).2
            (flushStep fs f (f.buf.take fs.pageSize.toNat) (f.buf.drop fs.pageSize.toNat)).1 := by
        simp only [flushLoop]
        rw [if_pos (Or.inr hcond), hbr]
      rw [hunfold]
      have hps := (flushStep_frame fs f (f.buf.take fs.pageSize.toNat)
        (f.buf.drop fs.pageSize.toNat)).2.2.2.1
      have hbuf := flushStep_buf fs f (f.buf.take fs.pageSize.toNat)
        (f.buf.drop fs.pageSize.toNat)
      have hrec := ih (flushStep fs f (f.buf.take fs.pageSize.toNat)
          (f.buf.drop fs.pageSize.toNat)).2
        (flushStep fs f (f.buf.take fs.pageSize.toNat) (f.buf.drop fs.pageSize.toNat)).1
        (by rw [hps]; exact hP)
        (by rw [hbuf]; simp only [List.length_drop]; omega)
      exact ⟨hrec.1, by rw [hps] at hrec; exact hrec.2⟩

/-- With `all = true`, a valid page size and an empty staging buffer, the
flush loop is one `io.EOF` iteration that changes nothing. -/
theorem flushLoop_true_empty (fuel : Nat) (fs : FileSystem) (f : File)
    (hP : 1 ≤ fs.pageSize) (hbuf : f.buf = []) (hfuel : 1 ≤ fuel) :
    flushLoop true fuel fs f = (none, f, fs) := by
  obtain ⟨k, rfl⟩ : ∃ k, fuel = k + 1 := ⟨fuel - 1, by omega⟩
  have hbr : bufferRead f.buf fs.pageSize.toNat = ([], f.buf, some VErr.eof) := by
    rw [hbuf]
    simp only [bufferRead]
    rw [if_pos (by simp), if_neg (by omega)]
  have hstep : flushStep fs f [] f.buf = ({ f with buf := f.buf }, fs) := by
    simp [flushStep]
  simp only [flushLoop]
  rw [if_pos (Or.inl trivial), hbr]
  dsimp only
  rw [hstep]

end VFS

namespace VFS

/-- `File.flush(false)`: the spec of the flush loop, lifted through the
content-type sniff (which touches no field the statement mentions) and the
identity epilogue. -/
theorem flush_false_spec (fs : FileSystem) (f : File)
    (hP : 1 ≤ fs.pageSize) (ho : 0 ≤ f.offset)
    (htr : f.offset = 0 → f.info.pages = [] ∧ f.info.size = 0) :
    (File.flush fs f false).1 = none ∧
    (File.flush fs f false).2.1.buf =
      f.buf.drop (f.buf.length / fs.pageSize.toNat * fs.pageSize.toNat) ∧
    (File.flush fs f false).2.1.offset =
      f.offset + ((f.buf.length / fs.pageSize.toNat * fs.pageSize.toNat : Nat) : Int) ∧
    (File.flush fs f false).2.1.info.pages.length =
      f.info.pages.length + f.buf.length / fs.pageSize.toNat ∧
    (∀ j, j < f.info.pages.length →
       (File.flush fs f false).2.1.info.pages[j]? = f.info.pages[j]?) ∧
    (∀ j, j < f.buf.length / fs.pageSize.toNat →
       (File.flush fs f false).2.1.info.pages[f.info.pages.length + j]? =
         some (fs.nextPage + j)) ∧
    (File.flush fs f false).2.1.info.size = f.info.size ∧
    (File.flush fs f false).2.1.info.isDir = f.info.isDir ∧
    (File.flush fs f false).2.2.pageSize = fs.pageSize ∧
    (File.flush fs f false).2.2.nextPage =
      fs.nextPage + f.buf.length / fs.pageSize.toNat ∧
    (File.flush fs f false).2.2.saveCount = fs.saveCount ∧
    (∀ j, j < f.buf.length / fs.pageSize.toNat →
       storageGet (File.flush fs f false).2.2.storage (fs.nextPage + j) =
         some ((f.buf.drop (j * fs.pageSize.toNat)).take fs.pageSize.toNat)) ∧
    (∀ k, k < fs.nextPage →
       storageGet (File.flush fs f false).2.2.storage k = storageGet fs.storage k) := by
  obtain ⟨m1, m2, m3, m4, m5, m6, m7⟩ := flushMime_fields f
  have hfl : File.flush fs f false =
      flushLoop false ((flushMime f).buf.length + 1) fs (flushMime f) := by
    simp only [File.flush]
    exact flushFinish_false_id _
  have hspec := flushLoop_false_spec ((flushMime f).buf.length + 1) fs (flushMime f) hP
      (by rw [m2]; exact ho) (by omega)
      (by intro h; rw [m2] at h; rw [m3, m4]; exact htr h)
  rw [m1, m2, m3, m4, m5] at hspec
  rw [hfl, m1]
  exact hspec

/-- `File.flush(true)` on a handle whose staging buffer is a non-empty
partial page (as at a write handle's `Close`): the whole buffer becomes one
final page under the next fresh key, the offset advances past it, the node's
size is set to that final offset, and the Directory Tree is persisted
exactly once. -/
theorem flush_true_small_spec (fs : FileSystem) (f : File)
    (hP : 1 ≤ fs.pageSize) (ho : 0 ≤ f.offset)
    (hsmall : (f.buf.length : Int) < fs.pageSize) (hne : f.buf ≠ [])
    (htr : f.offset = 0 → f.info.pages = [] ∧ f.info.size = 0) :
    (File.flush fs f true).1 = none ∧
    (File.flush fs f true).2.1.buf = [] ∧
    (File.flush fs f true).2.1.offset = f.offset + (f.buf.length : Int) ∧
    (File.flush fs f true).2.1.info.size = f.offset + (f.buf.length : Int) ∧
    (File.flush fs f true).2.1.info.pages.length = f.info.pages.length + 1 ∧
    (∀ j, j < f.info.pages.length →
       (File.flush fs f true).2.1.info.pages[j]? = f.info.pages[j]?) ∧
    (File.flush fs f true).2.1.info.pages[f.info.pages.length]? = some fs.nextPage ∧
    (File.flush fs f true).2.1.info.isDir = f.info.isDir ∧
    (File.flush fs f true).2.2.pageSize = fs.pageSize ∧
    (File.flush fs f true).2.2.nextPage = fs.nextPage + 1 ∧
    (File.flush fs f true).2.2.saveCount = fs.saveCount + 1 ∧
    storageGet (File.flush fs f true).2.2.storage fs.nextPage = some f.buf ∧
    (∀ k, k < fs.nextPage →
       storageGet (File.flush fs f true).2.2.storage k = storageGet fs.storage k) := by
  obtain ⟨m1, m2, m3, m4, m5, m6, m7⟩ := flushMime_fields f
  have hPn : 1 ≤ fs.pageSize.toNat := by omega
  have hlenpos : 0 < f.buf.length := List.length_pos.mpr hne
  have hlen0 : ¬(flushMime f).buf.length = 0 := by rw [m1]; omega
  have hsmall' : (flushMime f).buf.length ≤ fs.pageSize.toNat := by rw [m1]; omega
  have t1 : (flushMime f).buf.take fs.pageSize.toNat = (flushMime f).buf :=
    List.take_of_length_le hsmall'
  have t2 : (flushMime f).buf.drop fs.pageSize.toNat = [] :=
    List.drop_of_length_le hsmall'
  have hbr : bufferRead (flushMime f).buf fs.pageSize.toNat =
      ((flushMime f).buf, [], none) := by
    simp [bufferRead, hlen0, t1, t2]
  have hstep : flushStep fs (flushMime f) (flushMime f).buf [] =
      ({ (flushMime f) with
          buf := [],
          offset := (flushMime f).offset + ((flushMime f).buf.length : Int),
          info := (flushMime f).info.addPage fs.nextPage },
       { fs with storage := storagePut fs.storage fs.nextPage (flushMime f).buf,
                 nextPage := fs.nextPage + 1 }) := by
    simp only [flushStep]
    rw [if_pos (by rw [m1]; exact hlenpos)]
    by_cases h0 : (flushMime f).offset = 0
    · have h0' : f.offset = 0 := by rw [← m2]; exact h0
      rw [if_pos h0, truncate_eq_self ((flushMime f)).info
        (by rw [m3]; exact (htr h0').1) (by rw [m4]; exact (htr h0').2)]
      simp [FileSystem.EncryptPage]
    · rw [if_neg h0]
      simp [FileSystem.EncryptPage]
  have hloop1 : flushLoop true ((flushMime f).buf.length + 1) fs (flushMime f) =
      flushLoop true (flushMime f).buf.length
        { fs with storage := storagePut fs.storage fs.nextPage (flushMime f).buf,
                  nextPage := fs.nextPage + 1 }
        { (flushMime f) with
           buf := [],
           offset := (flushMime f).offset + ((flushMime f).buf.length : Int),
           info := (flushMime f).info.addPage fs.nextPage } := by
    simp only [flushLoop]
    rw [if_pos (Or.inl trivial), hbr]
    dsimp only
    rw [hstep]
  have hloop2 : flushLoop true (flushMime f).buf.length
      { fs with storage := storagePut fs.storage fs.nextPage (flushMime f).buf,
                nextPage := fs.nextPage + 1 }
      { (flushMime f) with
         buf := [],
         offset := (flushMime f).offset + ((flushMime f).buf.length : Int),
         info := (flushMime f).info.addPage fs.nextPage } =
      (none,
       { (flushMime f) with
          buf := [],
          offset := (flushMime f).offset + ((flushMime f).buf.length : Int),
          info := (flushMime f).info.addPage fs.nextPage },
       { fs with storage := storagePut fs.storage fs.nextPage (flushMime f).buf,
                 nextPage := fs.nextPage + 1 }) := by
    refine flushLoop_true_empty _ _ _ (by dsimp only; exact hP) rfl ?_
    rw [m1]
    omega
  have hflush : File.flush fs f true =
      (none,
       { (flushMime f) with
          buf := [],
          offset := (flushMime f).offset + ((flushMime f).buf.length : Int),
          info := ((flushMime f).info.addPage fs.nextPage).setSize
            ((flushMime f).offset + ((flushMime f).buf.length : Int)) },
       { fs with storage := storagePut fs.storage fs.nextPage (flushMime f).buf,
                 nextPage := fs.nextPage + 1, saveCount := fs.saveCount + 1 }) := by
    simp only [File.flush]
    rw [hloop1, hloop2]
    simp [flushFinish, FileSystem.SaveFileTree]
  rw [hflush]
  refine ⟨rfl, rfl, ?_, ?_, ?_, ?_, ?_, ?_, ?_, ?_, ?_, ?_, ?_⟩
  · dsimp only
    rw [m1, m2]
  · dsimp only
    simp only [FileInfo.setSize]
    rw [m1, m2]
  · dsimp only
    simp [FileInfo.setSize, FileInfo.addPage, m3]
  · intro j hj
    dsimp only
    simp only [FileInfo.setSize, FileInfo.addPage]
    rw [m3]
    exact List.getElem?_append_left hj
  · dsimp only
    simp only [FileInfo.setSize, FileInfo.addPage]
    rw [m3]
    simp
  · dsimp only
    simp [FileInfo.setSize, FileInfo.addPage, m5]
  · rfl
  · rfl
  · rfl
  · dsimp only
    rw [m1, storageGet_put_same]
  · intro k hk
    dsimp only
    rw [storageGet_put_ne _ _ _ _ (by omega)]

end VFS

namespace VFS

/-- The handle state right after `newFile(fs, newFileInfo, WriteOnly)` with
the caller's bytes appended to the staging buffer (the state `File.Write`
hands to `flush`). -/
def writeStaged (B : Bytes) : File :=
  { buf := B, offset := 0,
    info := { isDir := false, pages := [], size := 0, busy := true, mimeType := "",
              dirContent := [], files := [] },
    flag := WriteOnly }

/-- Writing `B` through a fresh write handle on a new file over a fresh file
system: the call reports `len(B)` bytes and no error; afterwards the staging
buffer holds the final `B.length mod P` bytes, the offset sits at the end of
the flushed full pages, the node lists the full pages `0, …, n-1`
(`n = ⌊len/P⌋`) in order, the stored blob `j` is bytes `[jP, (j+1)P)` of `B`,
the node's size is still 0 (only `flush(true)` sets it), the busy flag is
up, and nothing has been persisted. -/
theorem write_stage_spec (P : Int) (B : Bytes) (hP : 1 ≤ P) :
    (File.Write (initFS P) (openHandle newFileInfo WriteOnly) B).1 = B.length ∧
    (File.Write (initFS P) (openHandle newFileInfo WriteOnly) B).2.1 = none ∧
    (File.Write (initFS P) (openHandle newFileInfo WriteOnly) B).2.2.1.buf =
      B.drop (B.length / P.toNat * P.toNat) ∧
    (File.Write (initFS P) (openHandle newFileInfo WriteOnly) B).2.2.1.offset =
      ((B.length / P.toNat * P.toNat : Nat) : Int) ∧
    (File.Write (initFS P) (openHandle newFileInfo WriteOnly) B).2.2.1.info.pages.length =
      B.length / P.toNat ∧
    (∀ j, j < B.length / P.toNat →
      (File.Write (initFS P) (openHandle newFileInfo WriteOnly) B).2.2.1.info.pages[j]? =
        some j) ∧
    (File.Write (initFS P) (openHandle newFileInfo WriteOnly) B).2.2.1.info.size = 0 ∧
    (File.Write (initFS P) (openHandle newFileInfo WriteOnly) B).2.2.1.info.isDir = false ∧
    (File.Write (initFS P) (openHandle newFileInfo WriteOnly) B).2.2.1.info.busy = true ∧
    (File.Write (initFS P) (openHandle newFileInfo WriteOnly) B).2.2.1.flag = WriteOnly ∧
    (File.Write (initFS P) (openHandle newFileInfo WriteOnly) B).2.2.2.pageSize = P ∧
    (File.Write (initFS P) (openHandle newFileInfo WriteOnly) B).2.2.2.nextPage =
      B.length / P.toNat ∧
    (File.Write (initFS P) (openHandle newFileInfo WriteOnly) B).2.2.2.saveCount = 0 ∧
    (∀ j, j < B.length / P.toNat →
      storageGet (File.Write (initFS P) (openHandle newFileInfo WriteOnly) B).2.2.2.storage
          j =
        some ((B.drop (j * P.toNat)).take P.toNat)) := by
  have hsp := flush_false_spec (initFS P) (writeStaged B)
      (by dsimp only [initFS]; exact hP)
      (by dsimp only [writeStaged]; omega)
      (by intro _; exact ⟨rfl, rfl⟩)
  simp only [initFS, writeStaged] at hsp
  simp only [List.length_nil, Nat.zero_add, Nat.add_zero] at hsp
  have hw : File.Write (initFS P) (openHandle newFileInfo WriteOnly) B =
      (B.length, none,
       (File.flush { pageSize := P, storage := [], nextPage := 0, saveCount := 0 }
          { buf := B, offset := 0,
            info := { isDir := false, pages := [], size := 0, busy := true, mimeType := "",
                      dirContent := [], files := [] },
            flag := WriteOnly } false).2.1,
       (File.flush { pageSize := P, storage := [], nextPage := 0, saveCount := 0 }
          { buf := B, offset := 0,
            info := { isDir := false, pages := [], size := 0, busy := true, mimeType := "",
                      dirContent := [], files := [] },
            flag := WriteOnly } false).2.2) := by
    have hopen : openHandle newFileInfo WriteOnly =
        { buf := [], offset := 0,
          info := { isDir := false, pages := [], size := 0, busy := true, mimeType := "",
                    dirContent := [], files := [] },
          flag := WriteOnly } := by decide
    have hflag : ¬Nat.land WriteOnly WriteOnly = 0 := by decide
    simp only [File.Write, hopen, initFS, writeStaged]
    rw [if_neg hflag]
    simp only [List.nil_append]
    rcases hfl : File.flush { pageSize := P, storage := [], nextPage := 0, saveCount := 0 }
        { buf := B, offset := 0,
          info := { isDir := false, pages := [], size := 0, busy := true, mimeType := "",
                    dirContent := [], files := [] },
          flag := WriteOnly } false with ⟨e, f2, fs2⟩
    have he : e = none := by
      have h1 := hsp.1
      simp only [writeStaged, initFS] at h1
      rw [hfl] at h1
      exact h1
    subst he
    rfl
  rw [hw]
  exact ⟨rfl, rfl, hsp.2.1, hsp.2.2.1.trans (zero_add _), hsp.2.2.2.1,
    hsp.2.2.2.2.2.1, hsp.2.2.2.2.2.2.1, hsp.2.2.2.2.2.2.2.1,
    (flush_frame { pageSize := P, storage := [], nextPage := 0, saveCount := 0 }
      (writeStaged B) false).1,
    (flush_frame { pageSize := P, storage := [], nextPage := 0, saveCount := 0 }
      (writeStaged B) false).2.2,
    hsp.2.2.2.2.2.2.2.2.1, hsp.2.2.2.2.2.2.2.2.2.1, hsp.2.2.2.2.2.2.2.2.2.2.1,
    hsp.2.2.2.2.2.2.2.2.2.2.2.1⟩

end VFS

namespace VFS

/-- The write-then-close pipeline when `len(B)` is an exact multiple of the
page size: the buffer is empty at `Close`, so the `flush(true)` finalizer is
skipped entirely — the node keeps size 0, nothing is persisted — although
all full pages are in place. -/
theorem runWriteClose_mod_zero (P : Int) (B : Bytes) (hP : 1 ≤ P)
    (hr : B.length % P.toNat = 0) :
    (runWriteClose P B).1 = none ∧
    (runWriteClose P B).2.1.size = 0 ∧
    (runWriteClose P B).2.1.busy = false ∧
    (runWriteClose P B).2.1.isDir = false ∧
    (runWriteClose P B).2.1.pages.length = B.length / P.toNat ∧
    (∀ j, j < B.length / P.toNat → (runWriteClose P B).2.1.pages[j]? = some j) ∧
    (runWriteClose P B).2.2.saveCount = 0 ∧
    (runWriteClose P B).2.2.pageSize = P ∧
    (∀ j, j < B.length / P.toNat →
      storageGet (runWriteClose P B).2.2.storage j =
        some ((B.drop (j * P.toNat)).take P.toNat)) := by
  obtain ⟨ws1, ws2, ws3, ws4, ws5, ws6, ws7, ws8, ws9, ws10, ws11, ws12, ws13, ws14⟩ :=
    write_stage_spec P B hP
  rcases hW : File.Write (initFS P) (openHandle newFileInfo WriteOnly) B with
    ⟨cnt, e, f1, fs1⟩
  rw [hW] at ws1 ws2 ws3 ws4 ws5 ws6 ws7 ws8 ws9 ws10 ws11 ws12 ws13 ws14
  try dsimp only at ws1 ws2 ws3 ws4 ws5 ws6 ws7 ws8 ws9 ws10 ws11 ws12 ws13 ws14
  subst ws2
  have hcomm : P.toNat * (B.length / P.toNat) = B.length / P.toNat * P.toNat :=
    Nat.mul_comm _ _
  have hdm := Nat.div_add_mod B.length P.toNat
  have hbufnil : f1.buf = [] := by
    rw [ws3]
    apply List.eq_nil_of_length_eq_zero
    simp only [List.length_drop]
    omega
  have hclose : File.Close fs1 f1 =
      (none, { f1 with offset := 0, info := { f1.info with busy := false } }, fs1) := by
    simp only [File.Close]
    rw [if_neg ?hc]
    case hc =>
      intro h
      rcases h with ⟨-, hb⟩
      try dsimp only at hb
      rw [hbufnil] at hb
      simp at hb
    try rfl
  simp only [runWriteClose]
  rw [hW]
  dsimp only
  rw [hclose]
  dsimp only
  exact ⟨rfl, ws7, rfl, ws8, ws5, ws6, ws13, ws11, ws14⟩

/-- The write-then-close pipeline when `len(B)` is not a multiple of the page
size: `Close` flushes the final partial page, sets the node's size to
`len(B)`, and persists the tree once; the page list is the `⌊L/P⌋` full
pages followed by the remainder page, every stored page `j` holding bytes
`[jP, (j+1)P)` of `B`. -/
theorem runWriteClose_mod_pos (P : Int) (B : Bytes) (hP : 1 ≤ P)
    (hr : B.length % P.toNat ≠ 0) :
    (runWriteClose P B).1 = none ∧
    (runWriteClose P B).2.1.size = (B.length : Int) ∧
    (runWriteClose P B).2.1.busy = false ∧
    (runWriteClose P B).2.1.isDir = false ∧
    (runWriteClose P B).2.1.pages.length = B.length / P.toNat + 1 ∧
    (∀ j, j < B.length / P.toNat + 1 → (runWriteClose P B).2.1.pages[j]? = some j) ∧
    (runWriteClose P B).2.2.saveCount = 1 ∧
    (runWriteClose P B).2.2.pageSize = P ∧
    (∀ j, j < B.length / P.toNat + 1 →
      storageGet (runWriteClose P B).2.2.storage j =
        some ((B.drop (j * P.toNat)).take P.toNat)) := by
  obtain ⟨ws1, ws2, ws3, ws4, ws5, ws6, ws7, ws8, ws9, ws10, ws11, ws12, ws13, ws14⟩ :=
    write_stage_spec P B hP
  rcases hW : File.Write (initFS P) (openHandle newFileInfo WriteOnly) B with
    ⟨cnt, e, f1, fs1⟩
  rw [hW] at ws1 ws2 ws3 ws4 ws5 ws6 ws7 ws8 ws9 ws10 ws11 ws12 ws13 ws14
  try dsimp only at ws1 ws2 ws3 ws4 ws5 ws6 ws7 ws8 ws9 ws10 ws11 ws12 ws13 ws14
  subst ws2
  have hPn : 1 ≤ P.toNat := by omega
  have hcomm : P.toNat * (B.length / P.toNat) = B.length / P.toNat * P.toNat :=
    Nat.mul_comm _ _
  have hdm := Nat.div_add_mod B.length P.toNat
  have hbuflen : f1.buf.length = B.length % P.toNat := by
    rw [ws3]
    simp only [List.length_drop]
    omega
  have hmodlt : B.length % P.toNat < P.toNat := Nat.mod_lt _ (by omega)
  set f0 : File := { f1 with info := { f1.info with busy := false } } with hf0
  have hf0buf : f0.buf = f1.buf := rfl
  have hfsp := flush_true_small_spec fs1 f0
      (by rw [ws11]; exact hP)
      (by dsimp only [hf0]; rw [ws4]; omega)
      (by rw [hf0buf, hbuflen, ws11]; omega)
      (by rw [hf0buf]; intro hnil; rw [hnil] at hbuflen; simp at hbuflen; omega)
      (by
        dsimp only [hf0]
        rw [ws4]
        intro h0
        have hz : B.length / P.toNat * P.toNat = 0 := by
          omega
        have hn0 : B.length / P.toNat = 0 := by
          rcases Nat.mul_eq_zero.mp hz with h | h
          · exact h
          · omega
        constructor
        · have := ws5
          rw [hn0] at this
          exact List.eq_nil_of_length_eq_zero this
        · exact ws7)
  have hbusy : (File.flush fs1 f0 true).2.1.info.busy = false := by
    have := (flush_frame fs1 f0 true).1
    rw [this]
  have hclose : File.Close fs1 f1 = File.flush fs1 f0 true := by
    simp only [File.Close]
    rw [if_pos ?hc]
    case hc =>
      constructor
      · rw [ws10]
        decide
      · dsimp only
        omega
  simp only [runWriteClose]
  rw [hW]
  dsimp only
  rw [hclose]
  rcases hF : File.flush fs1 f0 true with ⟨eF, fF, fsF⟩
  rw [hF] at hfsp hbusy
  dsimp only at hfsp hbusy ⊢
  obtain ⟨p1, p2, p3, p4, p5, p6, p7, p8, p9, p10, p11, p12, p13⟩ := hfsp
  subst p1
  refine ⟨rfl, ?_, hbusy, ?_, ?_, ?_, ?_, ?_, ?_⟩
  · rw [p4, ws4, hbuflen]
    omega
  · rw [p8]
    exact ws8
  · rw [p5]
    omega
  · intro j hj
    by_cases hjn : j < B.length / P.toNat
    · have h6 := p6 j (by omega)
      rw [h6]
      exact ws6 j hjn
    · have hjeq : j = B.length / P.toNat := by omega
      subst hjeq
      rw [← ws5, p7, ws12, ws5]
  · rw [p11, ws13]
  · rw [p9, ws11]
  · intro j hj
    by_cases hjn : j < B.length / P.toNat
    · have h13 := p13 j (by rw [ws12]; exact hjn)
      rw [h13]
      exact ws14 j hjn
    · have hjeq : j = B.length / P.toNat := by omega
      subst hjeq
      have htk : (B.drop (B.length / P.toNat * P.toNat)).take P.toNat =
          B.drop (B.length / P.toNat * P.toNat) := by
        apply List.take_of_length_le
        simp only [List.length_drop]
        omega
      rw [← ws12, p12, ws12, ws3, htk]

end VFS

namespace VFS

/-- `File.flush(false)` under a valid page size never errs and leaves fewer
than `pageSize` bytes staged. -/
theorem flush_false_errbuf (fs : FileSystem) (f : File) (hP : 1 ≤ fs.pageSize) :
    (File.flush fs f false).1 = none ∧
    (((File.flush fs f false).2.1.buf.length : Int) < fs.pageSize) := by
  have h := flushLoop_false_errbuf ((flushMime f).buf.length + 1) fs (flushMime f) hP
    (by omega)
  have hid : File.flush fs f false =
      flushLoop false ((flushMime f).buf.length + 1) fs (flushMime f) := by
    simp only [File.flush]
    exact flushFinish_false_id _
  rw [hid]
  exact h

/-- After any successful `Write` under a valid page size the staging buffer
holds fewer than `pageSize` bytes: pages are flushed exactly while the
buffer holds at least a full page. -/
theorem write_buf_bound (fs : FileSystem) (g : File) (q : Bytes)
    (hP : 1 ≤ fs.pageSize) (hok : (File.Write fs g q).2.1 = none) :
    (((File.Write fs g q).2.2.1.buf.length : Int) < fs.pageSize) := by
  by_cases hperm : Nat.land g.flag WriteOnly = 0
  · rw [File.Write, if_pos hperm] at hok
    simp at hok
  · have hfb := flush_false_errbuf fs { g with buf := g.buf ++ q } hP
    simp only [File.Write, if_neg hperm]
    rcases hfl : File.flush fs { g with buf := g.buf ++ q } false with ⟨e, f2, fs2⟩
    rw [hfl] at hfb
    rcases e with _ | e
    · exact hfb.2
    · simp at hfb

/-- C4: after writing `B` of length `L` to a new file and closing, the node
has exactly `⌈L / P⌉` pages; every stored page decrypts to a `P`-byte chunk
except the last when `L mod P ≠ 0`, which decrypts to the final `L mod P`
bytes; and after every successful `Write` call the staging buffer holds
fewer than `P` bytes (a page is flushed exactly whenever a full page is
buffered). -/
theorem claim4_page_chunking (P : Int) (B : Bytes) (hP : 1 ≤ P) :
    (runWriteClose P B).1 = none ∧
    (runWriteClose P B).2.1.pages.length = (B.length + P.toNat - 1) / P.toNat ∧
    (∀ j pid, (runWriteClose P B).2.1.pages[j]? = some pid →
      ∃ data, storageGet (runWriteClose P B).2.2.storage pid = some data ∧
        ((runWriteClose P B).2.2.DecryptPage data).length =
          (if j + 1 = (runWriteClose P B).2.1.pages.length ∧ B.length % P.toNat ≠ 0
           then B.length % P.toNat else P.toNat)) ∧
    (∀ (fs : FileSystem) (g : File) (q : Bytes), 1 ≤ fs.pageSize →
      (File.Write fs g q).2.1 = none →
      (((File.Write fs g q).2.2.1.buf.length : Int) < fs.pageSize)) := by
  have hPn : 1 ≤ P.toNat := by omega
  have hcomm : P.toNat * (B.length / P.toNat) = B.length / P.toNat * P.toNat :=
    Nat.mul_comm _ _
  have hdm := Nat.div_add_mod B.length P.toNat
  have hmodlt : B.length % P.toNat < P.toNat := Nat.mod_lt _ (by omega)
  by_cases hr : B.length % P.toNat = 0
  · obtain ⟨r1, r2, r3, r4, r5, r6, r7, r8, r9⟩ := runWriteClose_mod_zero P B hP hr
    refine ⟨r1, ?_, ?_, fun fs g q h1 h2 => write_buf_bound fs g q h1 h2⟩
    · have hL : B.length + P.toNat - 1 =
          (P.toNat - 1) + B.length / P.toNat * P.toNat := by
        omega
      have hceil : (B.length + P.toNat - 1) / P.toNat = B.length / P.toNat := by
        rw [hL, Nat.add_mul_div_right _ _ (show 0 < P.toNat by omega),
          Nat.div_eq_of_lt (show P.toNat - 1 < P.toNat by omega), Nat.zero_add]
      rw [r5]
      exact hceil.symm
    · intro j pid hjp
      have hjlt : j < (runWriteClose P B).2.1.pages.length :=
        (List.getElem?_eq_some.mp hjp).1
      rw [r5] at hjlt
      have hjs := r6 j hjlt
      rw [hjs] at hjp
      have hpid : j = pid := by simpa using hjp
      subst hpid
      refine ⟨(B.drop (j * P.toNat)).take P.toNat, r9 j hjlt, ?_⟩
      rw [if_neg (by simp [hr])]
      have hmul : (j + 1) * P.toNat ≤ B.length / P.toNat * P.toNat :=
        Nat.mul_le_mul_right _ (by omega)
      have hexp : (j + 1) * P.toNat = j * P.toNat + P.toNat := by ring
      simp only [FileSystem.DecryptPage, List.length_take, List.length_drop]
      omega
  · obtain ⟨r1, r2, r3, r4, r5, r6, r7, r8, r9⟩ := runWriteClose_mod_pos P B hP hr
    refine ⟨r1, ?_, ?_, fun fs g q h1 h2 => write_buf_bound fs g q h1 h2⟩
    · have hsucc : (B.length / P.toNat + 1) * P.toNat =
          B.length / P.toNat * P.toNat + P.toNat := by ring
      have hL : B.length + P.toNat - 1 =
          (B.length % P.toNat - 1) + (B.length / P.toNat + 1) * P.toNat := by
        omega
      have hceil : (B.length + P.toNat - 1) / P.toNat = B.length / P.toNat + 1 := by
        rw [hL, Nat.add_mul_div_right _ _ (show 0 < P.toNat by omega),
          Nat.div_eq_of_lt (show B.length % P.toNat - 1 < P.toNat by omega), Nat.zero_add]
      rw [r5]
      exact hceil.symm
    · intro j pid hjp
      have hjlt : j < (runWriteClose P B).2.1.pages.length :=
        (List.getElem?_eq_some.mp hjp).1
      rw [r5] at hjlt
      have hjs := r6 j hjlt
      rw [hjs] at hjp
      have hpid : j = pid := by simpa using hjp
      subst hpid
      refine ⟨(B.drop (j * P.toNat)).take P.toNat, r9 j hjlt, ?_⟩
      by_cases hlast : j = B.length / P.toNat
      · subst hlast
        rw [if_pos (⟨by rw [r5], hr⟩ :
          _ + 1 = (runWriteClose P B).2.1.pages.length ∧ B.length % P.toNat ≠ 0)]
        simp only [FileSystem.DecryptPage, List.length_take, List.length_drop]
        omega
      · rw [if_neg (by rw [r5]; intro hand; exact hlast (by omega))]
        have hmul : (j + 1) * P.toNat ≤ B.length / P.toNat * P.toNat :=
          Nat.mul_le_mul_right _ (by omega)
        have hexp : (j + 1) * P.toNat = j * P.toNat + P.toNat := by ring
        simp only [FileSystem.DecryptPage, List.length_take, List.length_drop]
        omega

/-- Witness for C4 at page size 32768 (the library's minimum) and an
11-byte write: one page of 11 bytes. -/
theorem claim4_page_chunking_witness :
    (1 : Int) ≤ 32768 ∧
    (runWriteClose 32768 [1, 2, 3, 4, 5, 6, 7, 8, 9, 10, 11]).2.1.pages.length =
      ([1, 2, 3, 4, 5, 6, 7, 8, 9, 10, 11].length + (32768 : Int).toNat - 1) /
        (32768 : Int).toNat :=
  ⟨by norm_num, (claim4_page_chunking 32768 [1, 2, 3, 4, 5, 6, 7, 8, 9, 10, 11]
    (by norm_num)).2.1⟩

end VFS

namespace VFS

/-- If the very first `File.read` step reports an error without delivering
bytes, the read loop returns that error with zero bytes. -/
theorem readLoop_err (fs : FileSystem) (fuel : Nat) (f : File) (m : Nat) (hm : ¬m = 0)
    (e : VErr) (hrd : File.read fs f m = ([], some e, f)) :
    File.readLoop fs (fuel + 1) f m = (0, [], some e, f) := by
  simp only [File.readLoop]
  rw [if_neg hm, hrd]
  rfl

/-- C1 (code bug): write a non-empty `B` whose length is an exact multiple of
the page size (here one full page) to a new file, close, reopen and read.
`Close` finds the staging buffer empty, skips `flush(true)` — and with it the
`setSize`/persist epilogue — so the node's size stays 0 and the read-back
returns **no bytes** (immediate `io.EOF`) instead of `B`: the round-trip
property fails, and the reported size is 0 instead of `len(B)`. -/
theorem claim1_roundtrip_lost_size_bug (P : Int) (B : Bytes) (hP : 1 ≤ P)
    (hB : B.length = P.toNat) :
    (runWriteClose P B).1 = none ∧
    (runWriteClose P B).2.1.size = 0 ∧
    runReadAll (runWriteClose P B).2.2 (runWriteClose P B).2.1 (B.length + 1) =
      ([], some VErr.eof) ∧
    B ≠ [] := by
  have hPn : 1 ≤ P.toNat := by omega
  have hr : B.length % P.toNat = 0 := by
    rw [hB]
    exact Nat.mod_self _
  obtain ⟨r1, r2, r3, r4, r5, r6, r7, r8, r9⟩ := runWriteClose_mod_zero P B hP hr
  have hBne : B ≠ [] := by
    intro h
    rw [h] at hB
    simp at hB
    omega
  refine ⟨r1, r2, ?_, hBne⟩
  have hopen : openHandle (runWriteClose P B).2.1 ReadOnly =
      { buf := [], offset := 0, info := (runWriteClose P B).2.1, flag := ReadOnly } := by
    rw [openHandle_eq, if_neg (by decide : ¬(Nat.land ReadOnly WriteOnly ≠ 0))]
  have hrd : File.read (runWriteClose P B).2.2
      { buf := [], offset := 0, info := (runWriteClose P B).2.1, flag := ReadOnly }
      (B.length + 1) =
      ([], some VErr.eof,
       { buf := [], offset := 0, info := (runWriteClose P B).2.1, flag := ReadOnly }) := by
    simp only [File.read]
    rw [if_pos (by simp [FileInfo.Size, r2])]
  have hread : File.Read (runWriteClose P B).2.2
      { buf := [], offset := 0, info := (runWriteClose P B).2.1, flag := ReadOnly }
      (B.length + 1) =
      (0, [], some VErr.eof,
       { buf := [], offset := 0, info := (runWriteClose P B).2.1, flag := ReadOnly }) := by
    simp only [File.Read]
    rw [if_neg (by decide), if_neg (by simp [FileInfo.IsDir, r4])]
    exact readLoop_err _ _ _ _ (by omega) VErr.eof hrd
  simp only [runReadAll]
  rw [hopen, hread]

/-- Witness for C1 at the minimum valid page size 32768 and a full-page
write of 32768 bytes. -/
theorem claim1_roundtrip_lost_size_bug_witness :
    (runWriteClose 32768 (List.replicate 32768 7)).1 = none ∧
    (runWriteClose 32768 (List.replicate 32768 7)).2.1.size = 0 ∧
    runReadAll (runWriteClose 32768 (List.replicate 32768 7)).2.2
      (runWriteClose 32768 (List.replicate 32768 7)).2.1
      ((List.replicate 32768 (7 : Nat)).length + 1) = ([], some VErr.eof) ∧
    (List.replicate 32768 (7 : Nat)) ≠ [] :=
  claim1_roundtrip_lost_size_bug 32768 (List.replicate 32768 7) (by norm_num)
    (by rw [List.length_replicate]; rfl)

/-- C5 (code bug): when the staging buffer is empty at close time (here
because `len(B)` is exactly one page, fully flushed during `Write`),
`Close` clears the busy flag but never calls `flush(true)`: the node's size
is **not** set to the bytes written (it stays 0) and the Directory Tree is
**not** persisted (`saveCount` stays 0), contradicting the claim that the
size update and tree persistence happen on every write-handle close. -/
theorem claim5_close_skips_finalize_bug (P : Int) (B : Bytes) (hP : 1 ≤ P)
    (hB : B.length = P.toNat) :
    (runWriteClose P B).1 = none ∧
    (runWriteClose P B).2.1.busy = false ∧
    (runWriteClose P B).2.1.size = 0 ∧
    (runWriteClose P B).2.2.saveCount = 0 ∧
    B ≠ [] := by
  have hr : B.length % P.toNat = 0 := by
    rw [hB]
    exact Nat.mod_self _
  obtain ⟨r1, r2, r3, r4, r5, r6, r7, r8, r9⟩ := runWriteClose_mod_zero P B hP hr
  refine ⟨r1, r3, r2, r7, ?_⟩
  intro h
  rw [h] at hB
  simp at hB
  omega

/-- Witness for C5 at page size 32768 with a full-page write. -/
theorem claim5_close_skips_finalize_bug_witness :
    (runWriteClose 32768 (List.replicate 32768 7)).2.1.size = 0 ∧
    (runWriteClose 32768 (List.replicate 32768 7)).2.2.saveCount = 0 :=
  ⟨(claim5_close_skips_finalize_bug 32768 (List.replicate 32768 7) (by norm_num)
      (by rw [List.length_replicate]; rfl)).2.2.1,
   (claim5_close_skips_finalize_bug 32768 (List.replicate 32768 7) (by norm_num)
      (by rw [List.length_replicate]; rfl)).2.2.2.1⟩

end VFS

namespace VFS

/-- C2 probe state, node side: a file of size `P` stored as the single page
`0` (its decrypted content is byte `5` followed by `P - 1` bytes `9`, so the
file's content at offset 1 is `9`). -/
def midPageInfo (P : Int) : FileInfo :=
  { newFileInfo with pages := [0], size := P }

/-- C2 probe state, file-system side: page size `P`, the Blob Store holding
the single page of `midPageInfo`. -/
def midPageFS (P : Int) : FileSystem :=
  { pageSize := P, storage := [(0, 5 :: List.replicate (P.toNat - 1) 9)],
    nextPage := 1, saveCount := 0 }

/-- C2 (code bug): seek a fresh read handle to offset 1 (mid-page, page size
`P ≥ 2`) and read one byte.  The code computes `pageIndex = 1 / P = 0` and
`offset mod pageSize = 1`, but passes the latter to `bytes.Buffer.Grow`,
which only grows capacity and skips nothing — so the handle delivers byte
`5`, the page's **first** byte (offset 0), although the file's content at
offset 1 is `9`: reads from a non-page-aligned offset return the wrong
bytes. -/
theorem claim2_read_does_not_skip_bug (P : Int) (hP : 2 ≤ P) :
    (File.Seek (openHandle (midPageInfo P) ReadOnly) 1 SeekStart).2.1 = none ∧
    (File.Seek (openHandle (midPageInfo P) ReadOnly) 1 SeekStart).2.2.offset = 1 ∧
    (File.Read (midPageFS P)
        (File.Seek (openHandle (midPageInfo P) ReadOnly) 1 SeekStart).2.2 1).2.1 = [5] ∧
    (5 :: List.replicate (P.toNat - 1) 9)[1]? = some 9 := by
  have hPn : 2 ≤ P.toNat := by omega
  have hopen : openHandle (midPageInfo P) ReadOnly =
      { buf := [], offset := 0, info := midPageInfo P, flag := ReadOnly } := by
    rw [openHandle_eq, if_neg (by decide : ¬(Nat.land ReadOnly WriteOnly ≠ 0))]
  have hsize : (midPageInfo P).Size = P := rfl
  have hseek : File.Seek (openHandle (midPageInfo P) ReadOnly) 1 SeekStart =
      (1, none, { buf := [], offset := 1, info := midPageInfo P, flag := ReadOnly }) := by
    rw [hopen]
    simp only [File.Seek, SeekStart]
    rw [if_neg (by simp [midPageInfo, newFileInfo, FileInfo.IsDir]),
      if_neg (by decide : ¬(Nat.land ReadOnly WriteOnly ≠ 0)),
      if_neg (show ¬((1 : Int) ≥ FileInfo.Size (midPageInfo P)) by rw [hsize]; omega),
      if_pos trivial]
    dsimp only
    rw [if_neg (by omega : ¬((1 : Int) < 0)),
      if_neg (show ¬((1 : Int) > FileInfo.Size (midPageInfo P)) by rw [hsize]; omega)]
  have hdiv : Int.tdiv 1 P = 0 := by
    rw [tdiv_eq_ediv_of_nonneg 1 P (by omega) (by omega)]
    exact Int.ediv_eq_zero_of_lt (by omega) (by omega)
  have hrd : File.read (midPageFS P)
      { buf := [], offset := 1, info := midPageInfo P, flag := ReadOnly } 1 =
      ([5], none,
       { buf := List.replicate (P.toNat - 1) 9, offset := 2,
         info := midPageInfo P, flag := ReadOnly }) := by
    simp only [File.read]
    rw [if_neg (show ¬(FileInfo.Size (midPageInfo P) ≤ (1 : Int)) by rw [hsize]; omega),
      if_pos (by rfl : (([] : Bytes)).length = 0)]
    dsimp only [midPageFS]
    rw [hdiv]
    rw [if_pos (by omega : (0 : Int) ≤ 0)]
    have hpage : (midPageInfo P).pages[(0 : Int).toNat]? = some 0 := rfl
    rw [hpage]
    dsimp only
    have hget : storageGet [(0, 5 :: List.replicate (P.toNat - 1) 9)] 0 =
        some (5 :: List.replicate (P.toNat - 1) 9) := by
      simp [storageGet]
    rw [hget]
    dsimp only
    simp only [drainBuf, bufferRead, FileSystem.DecryptPage, List.nil_append]
    rw [if_neg (by simp)]
    simp only [List.take_succ_cons, List.take_zero, List.drop_succ_cons, List.drop_zero]
    norm_num
  have hread : File.Read (midPageFS P)
      { buf := [], offset := 1, info := midPageInfo P, flag := ReadOnly } 1 =
      (1, [5], none,
       { buf := List.replicate (P.toNat - 1) 9, offset := 2,
         info := midPageInfo P, flag := ReadOnly }) := by
    simp only [File.Read]
    rw [if_neg (by decide), if_neg (by simp [midPageInfo, newFileInfo, FileInfo.IsDir])]
    simp only [File.readLoop]
    rw [if_neg (by omega : ¬(1 = 0)), hrd]
    rfl
  refine ⟨?_, ?_, ?_, ?_⟩
  · rw [hseek]
  · rw [hseek]
  · rw [hseek]
    dsimp only
    rw [hread]
  · have : P.toNat - 1 ≠ 0 := by omega
    rw [List.getElem?_cons_succ]
    simp [List.getElem?_replicate, Nat.pos_of_ne_zero this]

/-- Witness for C2 at the minimum valid page size 32768. -/
theorem claim2_read_does_not_skip_bug_witness :
    (File.Read (midPageFS 32768)
        (File.Seek (openHandle (midPageInfo 32768) ReadOnly) 1 SeekStart).2.2 1).2.1 =
      [5] ∧
    (5 :: List.replicate ((32768 : Int).toNat - 1) 9)[1]? = some 9 :=
  ⟨(claim2_read_does_not_skip_bug 32768 (by norm_num)).2.2.1,
   (claim2_read_does_not_skip_bug 32768 (by norm_num)).2.2.2⟩

end VFS
